import Mathlib

/-!
Shallow embedding of `src/batchdecrypt.py` (a batch downloader/decryptor for
encrypted segmented media streams) and verification of its specification
claims.

Modelling conventions:
* Python strings are Lean `String`s; character-level operations are defined on
  `List Char` and lifted, mirroring CPython semantics (`str.strip`,
  `str.split`, `str.startswith`, substring containment, `str.strip(chars)`).
* The filesystem is abstracted: a directory listing is a `List String`,
  file existence is a predicate `String → Bool`, file contents live in an
  abstract type, and a set of written files is an association list
  `List (String × α)` (later writes shadow earlier ones on lookup).
* Fallible Python code (raising exceptions) becomes `Except`/`Option`.
* External collaborators (HTTP fetch, openssl decryption, ffmpeg concat) are
  parameters: `fetch : String → Except String α`, `dec : α → Option α`.
-/

namespace BatchDecrypt

/-! ### Configuration constants (lines 12-14 of the source) -/

def input_dir : String := "inputfiles"

def base_dir : String := "processing"

def max_workers : Nat := 50

/-! ### Python string primitives on `List Char` -/

/-- Python whitespace for `str.strip()`: space, tab, newline, carriage
return, vertical tab, form feed. -/
def isPyWs (c : Char) : Bool :=
  c = ' ' || c = '\t' || c = '\n' || c = '\r' || c = '\x0b' || c = '\x0c'

/-- Python `s.strip()`: drop whitespace from both ends. -/
def pyStrip (s : String) : String :=
  ⟨((s.data.dropWhile isPyWs).reverse.dropWhile isPyWs).reverse⟩

/-- Python `s.strip(ch)` for a single character: drop every copy of `ch`
from both ends. -/
def pyStripChar (ch : Char) (s : String) : String :=
  ⟨((s.data.dropWhile (· = ch)).reverse.dropWhile (· = ch)).reverse⟩

/-- Split a character list at the first occurrence of `c`:
`some (before, after)` when `c` occurs, `none` otherwise. Models Python
`s.split(c, 1)` (where indexing `[1]` raises when `c` is absent). -/
def splitFirst (c : Char) : List Char → Option (List Char × List Char)
  | [] => none
  | x :: xs =>
    if x = c then some ([], xs)
    else (splitFirst c xs).map (fun p => (x :: p.1, p.2))

/-- Python `sub in s`: substring containment. -/
def hasSub (pat : List Char) : List Char → Bool
  | [] => pat.isEmpty
  | c :: cs => pat.isPrefixOf (c :: cs) || hasSub pat cs

/-- Python `sub in s` on strings. -/
def strContains (pat s : String) : Bool :=
  hasSub pat.data s.data

/-- Python `s.startswith(p)`. -/
def pyStartsWith (p s : String) : Bool :=
  p.data.isPrefixOf s.data

/-- Python `s.split(sep)` for a non-empty separator (no maxsplit):
leftmost non-overlapping occurrences, empty pieces kept, `[[]]` on the
empty list. The fuel argument (instantiated with the list length, enough
since every step consumes at least one character) keeps the recursion
structural. -/
def splitSubF (sep : List Char) : Nat → List Char → List (List Char)
  | _, [] => [[]]
  | 0, cs => [cs]
  | fuel + 1, c :: cs =>
    if sep.isPrefixOf (c :: cs) then
      [] :: splitSubF sep fuel ((c :: cs).drop sep.length)
    else
      match splitSubF sep fuel cs with
      | [] => [[c]]
      | r :: rs => (c :: r) :: rs

/-- Python `s.split(sep)` on strings. -/
def pySplit (sep s : String) : List String :=
  (splitSubF sep.data s.data.length s.data).map (⟨·⟩)

instance {ε α : Type} [DecidableEq ε] [DecidableEq α] :
    DecidableEq (Except ε α) := fun x y =>
  match x, y with
  | .ok a, .ok b =>
    if h : a = b then .isTrue (by rw [h]) else .isFalse (fun hh => h (Except.ok.inj hh))
  | .error a, .error b =>
    if h : a = b then .isTrue (by rw [h]) else .isFalse (fun hh => h (Except.error.inj hh))
  | .ok _, .error _ => .isFalse (fun hh => Except.noConfusion hh)
  | .error _, .ok _ => .isFalse (fun hh => Except.noConfusion hh)

/-- Numeric value of a digit string, as Python `int` on an all-digit
string. (Only ever applied to all-digit strings in this development;
non-digit characters contribute their code-point offset, which no theorem
relies on.) -/
def natOfDigits (cs : List Char) : Nat :=
  cs.foldl (fun a c => a * 10 + (c.toNat - '0'.toNat)) 0

/-- Python `int(s)` restricted to the all-digit strings this program feeds
it. -/
def pyInt (s : String) : Nat :=
  natOfDigits s.data

/-! ### `parse_m3u8` (lines 49-70)

```python
def parse_m3u8(playlist_path):
    iv = None
    segments = []
    with open(playlist_path, "r") as f:
        for line in f:
            line = line.strip()
            if line.startswith("#EXT-X-KEY"):
                attributes = line.split(":", 1)[1].split(",")
                for attr in attributes:
                    if attr.startswith("IV="):
                        iv = attr.split("=", 1)[1].strip('"')
                        if iv.lower().startswith("0x"):
                            iv = iv[2:]
            elif ".ts?" in line:
                segments.append(line)
    if not iv:
        raise ValueError(f"IV not found in ...")
    return iv, segments
```

The file is modelled as its list of lines. -/

/-- Errors `parse_m3u8` can raise: `noIV` is the explicit `ValueError`;
`indexError` models `line.split(":", 1)[1]` when the key-declaration line
has no colon. -/
inductive ParseErr where
  | noIV
  | indexError
deriving DecidableEq, Repr

/-- `iv = attr.split("=", 1)[1].strip('"')` followed by the `0x`/`0X`
strip. `attr` is known to start with `IV=`, so the split always succeeds. -/
def extractIVValue (attr : String) : String :=
  let afterEq : List Char :=
    match splitFirst '=' attr.data with
    | some p => p.2
    | none => []
  let unquoted := pyStripChar '"' ⟨afterEq⟩
  match unquoted.data with
  | '0' :: x :: rest => if x = 'x' || x = 'X' then ⟨rest⟩ else unquoted
  | _ => unquoted

/-- Process the attribute list of one `#EXT-X-KEY` line: the for-loop over
`attributes`, threading the current `iv` (last `IV=` attribute wins). -/
def scanAttrs (attrs : List String) (iv : Option String) : Option String :=
  attrs.foldl
    (fun acc attr =>
      if pyStartsWith "IV=" attr then some (extractIVValue attr) else acc)
    iv

/-- One iteration of the line loop: state is (current iv, segments so far).
Raises `indexError` on a key-declaration line with no colon. -/
def parseLine (st : Option String × List String) (rawLine : String) :
    Except ParseErr (Option String × List String) :=
  let line := pyStrip rawLine
  if pyStartsWith "#EXT-X-KEY" line then
    match splitFirst ':' line.data with
    | none => .error .indexError
    | some p => .ok (scanAttrs (pySplit "," ⟨p.2⟩) st.1, st.2)
  else if strContains ".ts?" line then
    .ok (st.1, st.2 ++ [line])
  else
    .ok st

/-- The line loop over the whole file. -/
def parseLines (st : Option String × List String) :
    List String → Except ParseErr (Option String × List String)
  | [] => .ok st
  | l :: ls => do parseLines (← parseLine st l) ls

/-- `parse_m3u8`: returns `(iv, segments)` or an error. Python's
`if not iv` treats both `None` and the empty string as absent. -/
def parse_m3u8 (lines : List String) : Except ParseErr (String × List String) :=
  match parseLines (none, []) lines with
  | .error e => .error e
  | .ok (none, _) => .error .noIV
  | .ok (some s, segments) =>
    if s = "" then .error .noIV else .ok (s, segments)

/-! ### `find_tasks` (lines 16-47)

The directory is modelled by the list of `*.m3u8` basenames that `glob`
returns (in arbitrary order) together with an existence predicate for key
files. `os.path.join` of relative components is `a ++ "/" ++ b`. -/

/-- `os.path.join` for the relative paths this program builds. -/
def joinPath (a b : String) : String := a ++ "/" ++ b

/-- The version part of the filename pattern: a match for `\d+\.\d+`
anchored on both sides (one dot separating two non-empty digit runs). -/
def isVersionCore (cs : List Char) : Bool :=
  let d1 := cs.takeWhile (·.isDigit)
  let rest := cs.dropWhile (·.isDigit)
  decide (d1 ≠ []) &&
    match rest with
    | '.' :: r2 => decide (r2 ≠ []) && r2.all (·.isDigit)
    | _ => false

/-- Does a filename suffix match `\d+\.\d+\.m3u8` exactly? Since `\d+`
never matches a dot, the regex engine's greedy matching of
`(\d+\.\d+)\.m3u8$` against a fixed suffix is equivalent to this direct
decomposition. -/
def suffixMatch (cs : List Char) : Bool :=
  decide (5 ≤ cs.length) &&
    decide (cs.drop (cs.length - 5) = ".m3u8".data) &&
    isVersionCore (cs.take (cs.length - 5))

/-- `re.match(r'^(.+?)(\d+\.\d+)\.m3u8$', filename)`: the non-greedy
`(.+?)` makes the base the shortest non-empty prefix whose complement
matches `(\d+\.\d+)\.m3u8$`. Returns `(base, version)`. -/
def parseM3u8Name (filename : String) : Option (String × String) :=
  let cs := filename.data
  match (List.range cs.length).find?
      (fun k => decide (1 ≤ k) && suffixMatch (cs.drop k)) with
  | none => none
  | some k => some (⟨cs.take k⟩, ⟨(cs.drop k).take ((cs.drop k).length - 5)⟩)

/-- The task record built at lines 36-44. -/
structure Task where
  base_name : String
  version : String
  output_file : String
  playlist : String
  key : String
  downloaded_dir : String
  decrypted_dir : String
deriving DecidableEq, Repr

/-- Build the task record for a matched filename (lines 36-44). -/
def mkTask (filename base version : String) : Task :=
  { base_name := base
    version := version
    output_file := base ++ " " ++ version ++ ".mp4"
    playlist := joinPath input_dir filename
    key := joinPath input_dir (base ++ version ++ ".bin")
    downloaded_dir := joinPath base_dir ("downloaded_" ++ version)
    decrypted_dir := joinPath base_dir ("decrypted_" ++ version) }

/-- The sort key of line 47: `[int(n) for n in version.split('.')]`. -/
def versionKey (v : String) : List Nat :=
  (pySplit "." v).map pyInt

/-- Python's lexicographic `<=` on integer lists (the order `sorted` sorts
its keys into). -/
def lexLe : List Nat → List Nat → Bool
  | [], _ => true
  | _ :: _, [] => false
  | a :: as, b :: bs => decide (a < b) || (decide (a = b) && lexLe as bs)

/-- Task comparison used by the sort at line 47. -/
def taskLe (t u : Task) : Prop :=
  lexLe (versionKey t.version) (versionKey u.version) = true

instance : DecidableRel taskLe := fun t u =>
  inferInstanceAs
    (Decidable (lexLe (versionKey t.version) (versionKey u.version) = true))

/-- The discovery loop (lines 19-44): skip non-matching filenames, raise
`FileNotFoundError` on the first matched manifest whose key file is
missing, otherwise collect a task per matched pair. -/
def findTasksAux (keyEx : String → Bool) : List String → Except String (List Task)
  | [] => .ok []
  | f :: fs =>
    match parseM3u8Name f with
    | none => findTasksAux keyEx fs
    | some (b, v) =>
      if keyEx (joinPath input_dir (b ++ v ++ ".bin")) then
        (findTasksAux keyEx fs).map (fun ts => mkTask f b v :: ts)
      else
        .error ("Missing key file: " ++ b ++ v ++ ".bin")

/-- `find_tasks`: collect, then sort by version key (line 47). Python's
`sorted` is stable; insertion sort with the `<=`-on-key relation computes
the same stable sort. -/
def find_tasks (keyEx : String → Bool) (files : List String) :
    Except String (List Task) :=
  (findTasksAux keyEx files).map (List.insertionSort taskLe)

/-! ### Segment download (lines 72-78 and 98-106)

Segment bytes live in an abstract type `α`; the HTTP transport is a
parameter `fetch : String → Except String α` (`requests.get` +
`raise_for_status`). The thread pool submits one `download_segment` per
`enumerate(segments)` entry; each successful worker writes its file, and
`as_completed` only observes results, in some arrival order that is a
permutation of the submission order. -/

variable {α : Type}

/-- Python `enumerate` (0-based). -/
def pyEnumerate (l : List α) : List (Nat × α) := l.enum

/-- `f"segment{i}.ts"` (lines 74, 111, 112). -/
def segName (i : Nat) : String := "segment" ++ toString i ++ ".ts"

/-- The download target path of segment `i` of a task (line 74). -/
def downloadPath (t : Task) (i : Nat) : String :=
  joinPath t.downloaded_dir (segName i)

/-- The decrypted output path of segment `i` of a task (line 112). -/
def decryptPath (t : Task) (i : Nat) : String :=
  joinPath t.decrypted_dir (segName i)

/-- `download_segment(task, i, url)`: on fetch success, the written file
(path derived from `i` alone, content from the fetch). -/
def download_segment (fetch : String → Except String α) (t : Task)
    (i : Nat) (url : String) : Except String (String × α) :=
  (fetch url).map (fun bytes => (downloadPath t i, bytes))

/-- The results of all submitted fetches, one per `enumerate(segments)`
entry (lines 99-100): each is computed from its own URL only. -/
def downloadResults (fetch : String → Except String α) (t : Task)
    (segments : List String) : List (Nat × Except String (String × α)) :=
  (pyEnumerate segments).map (fun p => (p.1, download_segment fetch t p.1 p.2))

/-- The files on disk after the download phase, writes listed in a given
arrival order (a permutation of the submitted indices): a failed fetch
writes nothing. -/
def writesInOrder (fetch : String → Except String α) (t : Task)
    (segments : List String) (arrival : List Nat) : List (String × α) :=
  arrival.filterMap
    (fun i => (segments.get? i).bind
      (fun url => (download_segment fetch t i url).toOption))

/-- The files on disk after the download phase, in submission order. -/
def downloadedFiles (fetch : String → Except String α) (t : Task)
    (segments : List String) : List (String × α) :=
  writesInOrder fetch t segments (List.range segments.length)

/-- Read a written-files list as a map: the last write to a path wins. -/
def fsGet (ws : List (String × α)) (name : String) : Option α :=
  ws.foldl (fun acc kv => if kv.1 = name then some kv.2 else acc) none

/-! ### Segment decryption (lines 108-121)

The openssl invocation is a parameter `dec : α → Option α`; `none` models
a non-zero exit, which `check=True` turns into a fatal
`CalledProcessError`. A missing input file also makes openssl exit
non-zero, so the loop fails at index `i` whenever segment `i` is absent
from the download directory. -/

/-- The decryption loop body over an explicit index order; the error value
is the failing index. Returns the decrypted files written. -/
def decryptLoop (dec : α → Option α) (fs : String → Option α) (t : Task) :
    List Nat → Except Nat (List (String × α))
  | [] => .ok []
  | i :: rest =>
    match fs (downloadPath t i) with
    | none => .error i
    | some c =>
      match dec c with
      | none => .error i
      | some p => (decryptLoop dec fs t rest).map (fun ws => (decryptPath t i, p) :: ws)

/-- Lines 110-121: `for i in range(len(segments))`, strictly in ascending
index order. -/
def decryptStage (dec : α → Option α) (fs : String → Option α) (t : Task)
    (n : Nat) : Except Nat (List (String × α)) :=
  decryptLoop dec fs t (List.range n)

/-! ### Concatenation file list (lines 123-131) -/

/-- `os.path.basename`: the part after the last `/`. -/
def pyBasename (s : String) : String :=
  ⟨(s.data.reverse.takeWhile (· ≠ '/')).reverse⟩

/-- The sort key of lines 125-127:
`int(os.path.basename(x).split("segment")[1].split(".")[0])`. -/
def segSortKey (path : String) : Nat :=
  pyInt (((pySplit "." ((pySplit "segment" (pyBasename path)).getD 1 "")).getD 0 ""))

/-- File comparison used by `sorted` at lines 125-127. -/
def fileLe (a b : String) : Prop := segSortKey a ≤ segSortKey b

instance : DecidableRel fileLe := fun a b =>
  inferInstanceAs (Decidable (segSortKey a ≤ segSortKey b))

/-- `sorted(glob(...), key=...)`: sort the globbed decrypted-segment paths
by embedded numeric index (stable, like Python's `sorted`). -/
def sortSegments (paths : List String) : List String :=
  List.insertionSort fileLe paths

/-- Lines 129-131: the reference-list lines handed to ffmpeg, in sorted
order. -/
def fileListLines (paths : List String) : List String :=
  (sortSegments paths).map (fun p => "file '" ++ pyBasename p ++ "'")

/-! ### Orchestrator (lines 151-188) -/

/-- The per-task loop of lines 167-173: collect outputs of successful
tasks and `(task, error)` records of failed ones; a failure never stops
the iteration. `proc` abstracts `process_task`. -/
def runTasks (proc : Task → Except String String) :
    List Task → List String × List (Task × String)
  | [] => ([], [])
  | t :: ts =>
    let rest := runTasks proc ts
    match proc t with
    | .ok out => (out :: rest.1, rest.2)
    | .error e => (rest.1, (t, e) :: rest.2)

/-- How a run can end. -/
inductive RunOutcome where
  | fatalNoInput
  | fatalDiscovery (msg : String)
  | fatalNoTasks
  | completed (outputs : List String) (failures : List (Task × String))
deriving DecidableEq, Repr

/-- The `try` body of `main` (lines 153-180). The `Bool` is whether the
top-level workspace `base_dir` exists: reset to existing at line 159-160,
untouched when the input directory is missing. -/
def mainBody (inputExists : Bool) (keyEx : String → Bool)
    (files : List String) (proc : Task → Except String String)
    (baseExists : Bool) : RunOutcome × Bool :=
  if !inputExists then (.fatalNoInput, baseExists)
  else
    match find_tasks keyEx files with
    | .error msg => (.fatalDiscovery msg, true)
    | .ok [] => (.fatalNoTasks, true)
    | .ok ts =>
      let r := runTasks proc ts
      (.completed r.1 r.2, true)

/-- The `finally` block (lines 182-188): delete `base_dir` if it exists
(`shutil.rmtree` modelled as succeeding). -/
def finalCleanup (st : RunOutcome × Bool) : RunOutcome × Bool :=
  (st.1, if st.2 then false else st.2)

/-- `main`: body, then unconditional cleanup. -/
def mainRun (inputExists : Bool) (keyEx : String → Bool)
    (files : List String) (proc : Task → Except String String)
    (baseExists : Bool) : RunOutcome × Bool :=
  finalCleanup (mainBody inputExists keyEx files proc baseExists)

/-! ### Order lemmas for the two sorts -/

theorem lexLe_total (a : List Nat) : ∀ b, lexLe a b = true ∨ lexLe b a = true := by
  induction a with
  | nil => intro b; exact Or.inl rfl
  | cons x xs ih =>
    intro b
    cases b with
    | nil => exact Or.inr rfl
    | cons y ys =>
      rcases Nat.lt_trichotomy x y with h | h | h
      · left; simp [lexLe, h]
      · subst h
        rcases ih ys with h2 | h2
        · left; simp [lexLe, h2]
        · right; simp [lexLe, h2]
      · right; simp [lexLe, h]

theorem lexLe_trans (a : List Nat) :
    ∀ b c, lexLe a b = true → lexLe b c = true → lexLe a c = true := by
  induction a with
  | nil => intro b c _ _; rfl
  | cons x xs ih =>
    intro b c hab hbc
    cases b with
    | nil => simp [lexLe] at hab
    | cons y ys =>
      cases c with
      | nil => simp [lexLe] at hbc
      | cons z zs =>
        simp only [lexLe, Bool.or_eq_true, Bool.and_eq_true, decide_eq_true_eq] at hab hbc ⊢
        rcases hab with h1 | ⟨h1, h1r⟩ <;> rcases hbc with h2 | ⟨h2, h2r⟩
        · exact Or.inl (h1.trans h2)
        · exact Or.inl (h2 ▸ h1)
        · exact Or.inl (h1 ▸ h2)
        · exact Or.inr ⟨h1.trans h2, ih ys zs h1r h2r⟩

instance : IsTotal Task taskLe :=
  ⟨fun t u => lexLe_total (versionKey t.version) (versionKey u.version)⟩

instance : IsTrans Task taskLe := ⟨fun _ _ _ h1 h2 => lexLe_trans _ _ _ h1 h2⟩

instance : IsTotal String fileLe :=
  ⟨fun a b => Nat.le_total (segSortKey a) (segSortKey b)⟩

instance : IsTrans String fileLe := ⟨fun _ _ _ h1 h2 => Nat.le_trans h1 h2⟩

/-! ### Helper lemmas -/

/-- On success, the decryption loop writes exactly one file per processed
index, in processing order, named by the index. -/
theorem decryptLoop_ok_map_fst (dec : α → Option α) (fs : String → Option α)
    (t : Task) : ∀ (l : List Nat) (ws : List (String × α)),
    decryptLoop dec fs t l = .ok ws → ws.map Prod.fst = l.map (decryptPath t) := by
  intro l
  induction l with
  | nil =>
    intro ws h
    simp only [decryptLoop] at h
    cases h
    simp
  | cons i rest ih =>
    intro ws h
    rw [decryptLoop] at h
    cases hfs : fs (downloadPath t i) with
    | none => simp only [hfs] at h; exact Except.noConfusion h
    | some c =>
      simp only [hfs] at h
      cases hdec : dec c with
      | none => simp only [hdec] at h; exact Except.noConfusion h
      | some p =>
        simp only [hdec] at h
        cases hrec : decryptLoop dec fs t rest with
        | error e => simp only [hrec, Except.map] at h; exact Except.noConfusion h
        | ok ws2 =>
          simp only [hrec, Except.map, Except.ok.injEq] at h
          subst h
          simp [ih ws2 hrec]

/-- If every decryption succeeds but some processed index has no
downloaded file, the loop fails at an index whose file is missing. -/
theorem decryptLoop_error_of_missing (dec : α → Option α)
    (fs : String → Option α) (t : Task) (hdec : ∀ c, (dec c).isSome = true) :
    ∀ l : List Nat, (∃ j ∈ l, fs (downloadPath t j) = none) →
      ∃ k ∈ l, fs (downloadPath t k) = none ∧ decryptLoop dec fs t l = .error k := by
  intro l
  induction l with
  | nil => rintro ⟨j, hj, -⟩; cases hj
  | cons i rest ih =>
    rintro ⟨j, hj, hjm⟩
    cases hfs : fs (downloadPath t i) with
    | none =>
      exact ⟨i, List.mem_cons_self i rest, hfs, by rw [decryptLoop, hfs]⟩
    | some c =>
      have hji : j ≠ i := fun he => by rw [he, hfs] at hjm; cases hjm
      have hjrest : j ∈ rest := by
        cases List.mem_cons.mp hj with
        | inl h => exact absurd h hji
        | inr h => exact h
      obtain ⟨k, hk, hkm, hkerr⟩ := ih ⟨j, hjrest, hjm⟩
      obtain ⟨p, hp⟩ := Option.isSome_iff_exists.mp (hdec c)
      refine ⟨k, List.mem_cons_of_mem i hk, hkm, ?_⟩
      rw [decryptLoop]
      simp only [hfs, hp, hkerr, Except.map]

/-- `scanAttrs` leaves the accumulator unchanged when no attribute starts
with `IV=`. -/
theorem scanAttrs_of_no_iv : ∀ (attrs : List String) (acc : Option String),
    (∀ a ∈ attrs, pyStartsWith "IV=" a = false) → scanAttrs attrs acc = acc := by
  intro attrs
  induction attrs with
  | nil => intro acc _; rfl
  | cons a rest ih =>
    intro acc hno
    have ha := hno a (List.mem_cons_self a rest)
    have := ih (if pyStartsWith "IV=" a then some (extractIVValue a) else acc)
      (fun x hx => hno x (List.mem_cons_of_mem a hx))
    simp only [scanAttrs, List.foldl_cons] at *
    rw [ha] at this
    simpa [ha] using this

/-- Cancel a common leading string in a string equation. -/
theorem strAppend_cancel_left (p v w : String) (h : p ++ v = p ++ w) : v = w := by
  apply String.ext
  have hd := congrArg String.data h
  rw [String.data_append, String.data_append] at hd
  exact List.append_cancel_left hd

/-- Code-point lexicographic comparison of character lists: how Python
compares two strings with `<`. -/
def charListLt : List Char → List Char → Bool
  | [], [] => false
  | [], _ :: _ => true
  | _ :: _, [] => false
  | a :: as, b :: bs => decide (a < b) || (decide (a = b) && charListLt as bs)

/-- Python string `<`. -/
def strLexLt (a b : String) : Bool := charListLt a.data b.data

/-- Does a line carry an `IV` attribute the parser could see? (It is a
key-declaration line with a colon whose comma-separated attribute list has
an entry starting with `IV=`.) -/
def lineHasIV (rawLine : String) : Bool :=
  let line := pyStrip rawLine
  pyStartsWith "#EXT-X-KEY" line &&
    (match splitFirst ':' line.data with
     | none => false
     | some p => (pySplit "," ⟨p.2⟩).any (fun a => pyStartsWith "IV=" a))

/-- A matched manifest with a missing key file makes the discovery loop
raise, wherever it sits in the enumeration. -/
theorem findTasksAux_error_of_missing_key (keyEx : String → Bool) :
    ∀ (files : List String) (f b v : String), f ∈ files →
      parseM3u8Name f = some (b, v) →
      keyEx (joinPath input_dir (b ++ v ++ ".bin")) = false →
      ∃ msg, findTasksAux keyEx files = .error msg := by
  intro files
  induction files with
  | nil => intro f b v hf _ _; cases hf
  | cons a rest ih =>
    intro f b v hf hparse hkey
    rcases List.mem_cons.mp hf with he | hrest
    · subst he
      refine ⟨"Missing key file: " ++ b ++ v ++ ".bin", ?_⟩
      simp [findTasksAux, hparse, hkey]
    · obtain ⟨msg, hmsg⟩ := ih f b v hrest hparse hkey
      cases hpa : parseM3u8Name a with
      | none => exact ⟨msg, by simp [findTasksAux, hpa, hmsg]⟩
      | some bv =>
        obtain ⟨b2, v2⟩ := bv
        cases hk2 : keyEx (joinPath input_dir (b2 ++ v2 ++ ".bin")) with
        | true => exact ⟨msg, by simp [findTasksAux, hpa, hk2, hmsg, Except.map]⟩
        | false =>
          exact ⟨"Missing key file: " ++ b2 ++ v2 ++ ".bin",
            by simp [findTasksAux, hpa, hk2]⟩

/-- Every task the discovery loop collects has its workspace directories
derived from its version label. -/
theorem findTasksAux_mem_dirs (keyEx : String → Bool) :
    ∀ (files : List String) (l : List Task), findTasksAux keyEx files = .ok l →
      ∀ t ∈ l,
        t.downloaded_dir = joinPath base_dir ("downloaded_" ++ t.version) ∧
        t.decrypted_dir = joinPath base_dir ("decrypted_" ++ t.version) := by
  intro files
  induction files with
  | nil =>
    intro l h t ht
    simp only [findTasksAux, Except.ok.injEq] at h
    subst h
    cases ht
  | cons a rest ih =>
    intro l h t ht
    cases hpa : parseM3u8Name a with
    | none =>
      simp only [findTasksAux, hpa] at h
      exact ih l h t ht
    | some bv =>
      obtain ⟨b2, v2⟩ := bv
      simp only [findTasksAux, hpa] at h
      cases hk2 : keyEx (joinPath input_dir (b2 ++ v2 ++ ".bin")) with
      | false => rw [hk2] at h; simp at h
      | true =>
        rw [hk2] at h
        simp only [if_true] at h
        cases hrec : findTasksAux keyEx rest with
        | error e => rw [hrec] at h; cases h
        | ok l2 =>
          rw [hrec] at h
          simp only [Except.map, Except.ok.injEq] at h
          subst h
          rcases List.mem_cons.mp ht with he | hl2
          · subst he
            exact ⟨rfl, rfl⟩
          · exact ih l2 hrec t hl2

/-- On parse success, the segment list is the stripped lines that contain
the segment-file marker and are not key-declaration lines, appended to the
segments already accumulated, in file order. -/
theorem parseLines_segments :
    ∀ (lines : List String) (st : Option String × List String)
      (iv : Option String) (segs : List String),
      parseLines st lines = .ok (iv, segs) →
      segs = st.2 ++ (lines.map pyStrip).filter
        (fun l => !pyStartsWith "#EXT-X-KEY" l && strContains ".ts?" l) := by
  intro lines
  induction lines with
  | nil =>
    intro st iv segs h
    obtain ⟨siv, ssegs⟩ := st
    simp only [parseLines, Except.ok.injEq, Prod.mk.injEq] at h
    simp [h.2.symm]
  | cons a rest ih =>
    intro st iv segs h
    by_cases hk : pyStartsWith "#EXT-X-KEY" (pyStrip a) = true
    · cases hsp : splitFirst ':' (pyStrip a).data with
      | none =>
        rw [parseLines] at h
        simp only [parseLine, hk, if_true, hsp] at h
        cases h
      | some p =>
        rw [parseLines] at h
        simp only [parseLine, hk, if_true, hsp] at h
        have := ih (scanAttrs (pySplit "," ⟨p.2⟩) st.1, st.2) iv segs (by exact h)
        simpa [hk] using this
    · by_cases hc : strContains ".ts?" (pyStrip a) = true
      · rw [parseLines] at h
        simp only [parseLine, hk, hc, if_true, if_false] at h
        have := ih (st.1, st.2 ++ [pyStrip a]) iv segs (by exact h)
        simp only [List.map_cons, List.filter_cons] at *
        simp [hk, hc, this]
      · rw [parseLines] at h
        simp only [parseLine, hk, hc, if_false] at h
        have := ih st iv segs (by exact h)
        simp only [List.map_cons, List.filter_cons] at *
        simp [hk, hc, this]

/-- If no line carries an `IV` attribute, the line loop either raises
(key-declaration line without a colon) or finishes with `iv` still
unset. -/
theorem parseLines_none_iv :
    ∀ (lines : List String), (∀ l ∈ lines, lineHasIV l = false) →
      ∀ segs0 : List String,
        parseLines (none, segs0) lines = .error .indexError ∨
        ∃ segs, parseLines (none, segs0) lines = .ok (none, segs) := by
  intro lines
  induction lines with
  | nil => intro _ segs0; exact Or.inr ⟨segs0, rfl⟩
  | cons a rest ih =>
    intro hno segs0
    have ha := hno a (List.mem_cons_self a rest)
    have hrest := fun l hl => hno l (List.mem_cons_of_mem a hl)
    by_cases hk : pyStartsWith "#EXT-X-KEY" (pyStrip a) = true
    · cases hsp : splitFirst ':' (pyStrip a).data with
      | none =>
        left
        rw [parseLines]
        simp only [parseLine, hk, hsp, if_true]
        rfl
      | some p =>
        have hany : (pySplit "," ⟨p.2⟩).any (fun x => pyStartsWith "IV=" x) = false := by
          simp only [lineHasIV, hk, hsp, Bool.true_and] at ha
          exact ha
        have hscan : scanAttrs (pySplit "," ⟨p.2⟩) none = none :=
          scanAttrs_of_no_iv _ none
            (fun x hx => by
              have := List.any_eq_false.mp hany x hx
              simpa using this)
        have hstep : parseLine (none, segs0) a = .ok (none, segs0) := by
          simp [parseLine, hk, hsp, hscan]
        rw [parseLines, hstep]
        exact ih hrest segs0
    · by_cases hc : strContains ".ts?" (pyStrip a) = true
      · have hstep : parseLine (none, segs0) a = .ok (none, segs0 ++ [pyStrip a]) := by
          simp [parseLine, hk, hc]
        rw [parseLines, hstep]
        exact ih hrest (segs0 ++ [pyStrip a])
      · have hstep : parseLine (none, segs0) a = .ok (none, segs0) := by
          simp [parseLine, hk, hc]
        rw [parseLines, hstep]
        exact ih hrest segs0

/-! ### Sample data shared by the witnesses -/

/-- The task discovered for `a1.2.m3u8`. -/
def sampleTask : Task := mkTask "a1.2.m3u8" "a" "1.2"

/-- The task discovered for `b1.2.m3u8`. -/
def sampleTaskB : Task := mkTask "b1.2.m3u8" "b" "1.2"

/-- A `process_task` stand-in that fails exactly on base name `"b"`. -/
def procSample (tk : Task) : Except String String :=
  if tk.base_name = "b" then .error "boom" else .ok tk.output_file

/-- A fetch stand-in that fails exactly on URL `"bad"`. -/
def fetchSample (u : String) : Except String String :=
  if u = "bad" then .error "404" else .ok u

/-- A three-segment URL list whose middle fetch fails. -/
def segmentsSample : List String := ["a.ts?1", "bad", "c.ts?3"]

/-! ### Claims -/

/-- C1: decryption and concatenation proceed strictly in ascending
segment-index order. On success the decryptor's written outputs are one
per index `i = 0..N-1`, in exactly that order (the loop runs over
`range N`); the concatenator's reference list is sorted by the numeric
index embedded in each filename and is a permutation of the globbed
files irrespective of their enumeration order; files with indices
`{3,1,2}` are listed `1,2,3`. -/
theorem decrypt_and_concat_proceed_by_segment_index
    (dec : α → Option α) (fs : String → Option α) (t : Task) (n : Nat)
    (ws : List (String × α)) (h : decryptStage dec fs t n = .ok ws)
    (paths : List String) :
    ws.map Prod.fst = (List.range n).map (decryptPath t) ∧
    List.Sorted (· < ·) (List.range n) ∧
    List.Sorted fileLe (sortSegments paths) ∧
    (sortSegments paths).Perm paths ∧
    sortSegments ["segment3.ts", "segment1.ts", "segment2.ts"] =
      ["segment1.ts", "segment2.ts", "segment3.ts"] ∧
    fileListLines ["segment3.ts", "segment1.ts", "segment2.ts"] =
      ["file 'segment1.ts'", "file 'segment2.ts'", "file 'segment3.ts'"] :=
  ⟨decryptLoop_ok_map_fst dec fs t (List.range n) ws h,
   List.sorted_lt_range n,
   List.sorted_insertionSort fileLe paths,
   List.perm_insertionSort fileLe paths,
   by decide, by decide⟩

/-- Witness for C1 at a one-segment task and a shuffled three-file glob. -/
theorem decrypt_and_concat_proceed_by_segment_index_witness :
    ([(decryptPath sampleTask 0, "c")] : List (String × String)).map Prod.fst =
      (List.range 1).map (decryptPath sampleTask) ∧
    sortSegments ["segment3.ts", "segment1.ts", "segment2.ts"] =
      ["segment1.ts", "segment2.ts", "segment3.ts"] :=
  ⟨(decrypt_and_concat_proceed_by_segment_index (fun c => some c)
      (fun s => if s = downloadPath sampleTask 0 then some "c" else none)
      sampleTask 1 [(decryptPath sampleTask 0, "c")] (by decide) []).1,
   (decrypt_and_concat_proceed_by_segment_index (fun c => some c)
      (fun s => if s = downloadPath sampleTask 0 then some "c" else none)
      sampleTask 1 [(decryptPath sampleTask 0, "c")] (by decide) []).2.2.2.2.1⟩

/-- C2: a task failure is recorded with that task's identity and the run
proceeds: the loop's result on `l1 ++ t :: l2` with `proc t` failing is
the outputs of `l1` and `l2` unchanged plus `(t, e)` recorded among the
failures, and every task is accounted for (outputs + failures = tasks). -/
theorem task_failure_recorded_and_run_continues
    (proc : Task → Except String String) (l1 l2 : List Task) (t : Task)
    (e : String) (h : proc t = .error e) :
    runTasks proc (l1 ++ t :: l2) =
      ((runTasks proc l1).1 ++ (runTasks proc l2).1,
       (runTasks proc l1).2 ++ (t, e) :: (runTasks proc l2).2) ∧
    ∀ ts : List Task,
      (runTasks proc ts).1.length + (runTasks proc ts).2.length = ts.length := by
  constructor
  · induction l1 with
    | nil => simp [runTasks, h]
    | cons a l1 ih =>
      cases hpa : proc a with
      | ok out => simp [runTasks, hpa, ih]
      | error e2 => simp [runTasks, hpa, ih]
  · intro ts
    induction ts with
    | nil => rfl
    | cons a ts ih =>
      cases hpa : proc a with
      | ok out => simp only [runTasks, hpa, List.length_cons]; omega
      | error e2 => simp only [runTasks, hpa, List.length_cons]; omega

/-- Witness for C2: of tasks `[a, b]`, `b` fails; `a`'s output survives
and `(b, "boom")` is recorded. -/
theorem task_failure_recorded_and_run_continues_witness :
    runTasks procSample ([sampleTask] ++ sampleTaskB :: []) =
      ((runTasks procSample [sampleTask]).1 ++ (runTasks procSample []).1,
       (runTasks procSample [sampleTask]).2 ++
         (sampleTaskB, "boom") :: (runTasks procSample []).2) ∧
    (runTasks procSample [sampleTask, sampleTaskB]).1.length +
      (runTasks procSample [sampleTask, sampleTaskB]).2.length =
      ([sampleTask, sampleTaskB] : List Task).length :=
  ⟨(task_failure_recorded_and_run_continues procSample [sampleTask] []
      sampleTaskB "boom" (by decide)).1,
   (task_failure_recorded_and_run_continues procSample [sampleTask] []
      sampleTaskB "boom" (by decide)).2 [sampleTask, sampleTaskB]⟩

/-- C3: every one of the N submitted fetches is attempted exactly once,
each fetch result depends only on its own URL (so one failure never
aborts a sibling), and a task missing a downloaded segment file
deterministically fails in the decrypt stage at an index whose file is
missing — no retry exists in the model. -/
theorem segment_fetch_isolation_and_missing_file_fails_decrypt
    (fetch : String → Except String α) (t : Task) (segments : List String)
    (dec : α → Option α) (fs : String → Option α) (n j : Nat)
    (hdec : ∀ c, (dec c).isSome = true) (hj : j < n)
    (hmiss : fs (downloadPath t j) = none) :
    (downloadResults fetch t segments).map Prod.fst = List.range segments.length ∧
    ((downloadResults fetch t segments).map Prod.fst).Nodup ∧
    (∀ i url, segments[i]? = some url →
      (downloadResults fetch t segments)[i]? =
        some (i, download_segment fetch t i url)) ∧
    ∃ k, k < n ∧ fs (downloadPath t k) = none ∧
      decryptStage dec fs t n = .error k := by
  have hfst : (downloadResults fetch t segments).map Prod.fst =
      List.range segments.length := by
    show ((pyEnumerate segments).map
        (fun p => (p.1, download_segment fetch t p.1 p.2))).map Prod.fst = _
    rw [List.map_map]
    exact List.enum_map_fst segments
  refine ⟨hfst, ?_, ?_, ?_⟩
  · rw [hfst]; exact List.nodup_range _
  · intro i url hu
    simp [downloadResults, pyEnumerate, List.getElem?_map, List.getElem?_enum, hu]
  · obtain ⟨k, hk, hkm, hke⟩ :=
      decryptLoop_error_of_missing dec fs t hdec (List.range n)
        ⟨j, List.mem_range.mpr hj, hmiss⟩
    exact ⟨k, List.mem_range.mp hk, hkm, hke⟩

/-- Witness for C3: three segments, the middle fetch fails; both side
fetches are still attempted, and decryption fails at the missing index 1. -/
theorem segment_fetch_isolation_and_missing_file_fails_decrypt_witness :
    (downloadResults fetchSample sampleTask segmentsSample).map Prod.fst =
      List.range segmentsSample.length ∧
    decryptStage (fun c : String => some c)
      (fsGet (downloadedFiles fetchSample sampleTask segmentsSample))
      sampleTask 3 = .error 1 :=
  ⟨(segment_fetch_isolation_and_missing_file_fails_decrypt fetchSample
      sampleTask segmentsSample (fun c => some c)
      (fsGet (downloadedFiles fetchSample sampleTask segmentsSample))
      3 1 (fun _ => rfl) (by decide) (by decide)).1,
   by decide⟩

/-- C4: the discovered task sequence is sorted ascending by version label
compared component-wise as integers — so "1.9" sorts before "1.10" and
"2.1" before "10.1" — not lexicographically as strings (string order would
put "1.10" before "1.9" and "10.1" before "2.1"). -/
theorem tasks_sorted_by_componentwise_integer_version
    (keyEx : String → Bool) (files : List String) (ts : List Task)
    (h : find_tasks keyEx files = .ok ts) :
    ts.Sorted taskLe ∧
    (find_tasks (fun _ => true)
        ["a10.1.m3u8", "a2.1.m3u8", "a1.10.m3u8", "a1.9.m3u8"]).map
      (List.map Task.version) = .ok ["1.9", "1.10", "2.1", "10.1"] ∧
    lexLe (versionKey "1.9") (versionKey "1.10") = true ∧
    lexLe (versionKey "1.10") (versionKey "1.9") = false ∧
    lexLe (versionKey "2.1") (versionKey "10.1") = true ∧
    strLexLt "1.10" "1.9" = true ∧
    strLexLt "10.1" "2.1" = true := by
  refine ⟨?_, by decide, by decide, by decide, by decide, by decide, by decide⟩
  unfold find_tasks at h
  cases haux : findTasksAux keyEx files with
  | error e => rw [haux] at h; cases h
  | ok l =>
    rw [haux] at h
    simp only [Except.map, Except.ok.injEq] at h
    subst h
    exact List.sorted_insertionSort taskLe l

/-- Witness for C4 on the four-manifest directory. -/
theorem tasks_sorted_by_componentwise_integer_version_witness :
    List.Sorted taskLe
      [mkTask "a1.9.m3u8" "a" "1.9", mkTask "a1.10.m3u8" "a" "1.10",
       mkTask "a2.1.m3u8" "a" "2.1", mkTask "a10.1.m3u8" "a" "10.1"] ∧
    lexLe (versionKey "1.9") (versionKey "1.10") = true :=
  ⟨(tasks_sorted_by_componentwise_integer_version (fun _ => true)
      ["a10.1.m3u8", "a2.1.m3u8", "a1.10.m3u8", "a1.9.m3u8"]
      [mkTask "a1.9.m3u8" "a" "1.9", mkTask "a1.10.m3u8" "a" "1.10",
       mkTask "a2.1.m3u8" "a" "2.1", mkTask "a10.1.m3u8" "a" "10.1"]
      (by decide)).1,
   (tasks_sorted_by_componentwise_integer_version (fun _ => true)
      ["a10.1.m3u8", "a2.1.m3u8", "a1.10.m3u8", "a1.9.m3u8"]
      [mkTask "a1.9.m3u8" "a" "1.9", mkTask "a1.10.m3u8" "a" "1.10",
       mkTask "a2.1.m3u8" "a" "2.1", mkTask "a10.1.m3u8" "a" "10.1"]
      (by decide)).2.2.1⟩

/-- C5: a matched manifest whose companion key file is missing makes
discovery fail before returning any task, wherever the manifest sits in
the enumeration; a filename not matching the pattern is merely skipped. -/
theorem missing_key_fatal_nonmatching_skipped
    (keyEx : String → Bool) (files rest : List String) (f b v g : String)
    (hmem : f ∈ files) (hmatch : parseM3u8Name f = some (b, v))
    (hkey : keyEx (joinPath input_dir (b ++ v ++ ".bin")) = false)
    (hskip : parseM3u8Name g = none) :
    (∃ msg, find_tasks keyEx files = .error msg) ∧
    find_tasks keyEx (g :: rest) = find_tasks keyEx rest := by
  constructor
  · obtain ⟨msg, hmsg⟩ :=
      findTasksAux_error_of_missing_key keyEx files f b v hmem hmatch hkey
    exact ⟨msg, by simp [find_tasks, hmsg, Except.map]⟩
  · simp [find_tasks, findTasksAux, hskip]

/-- Witness for C5: a single matched manifest with no key file is fatal;
`bad.txt` is skipped. -/
theorem missing_key_fatal_nonmatching_skipped_witness :
    find_tasks (fun _ => false) ["a1.2.m3u8"] =
      .error "Missing key file: a1.2.bin" ∧
    find_tasks (fun _ => false) ("bad.txt" :: []) = find_tasks (fun _ => false) [] :=
  ⟨by decide,
   (missing_key_fatal_nonmatching_skipped (fun _ => false) ["a1.2.m3u8"] []
      "a1.2.m3u8" "a" "1.2" "bad.txt" (List.mem_cons_self _ _) (by decide)
      rfl (by decide)).2⟩

/-- C6 counterexample: a key-declaration line can itself contain the
segment-file marker `".ts?"` (for instance in its `URI` attribute); the
parser does not return it among the segment URLs, so the returned segment
URLs are not exactly the lines containing the marker. -/
theorem parser_segment_lines_counterexample :
    parse_m3u8
      ["#EXT-X-KEY:METHOD=AES-128,IV=0x11,URI=\"bad.ts?x\"", "seg1.ts?tok"] =
      .ok ("11", ["seg1.ts?tok"]) ∧
    (["#EXT-X-KEY:METHOD=AES-128,IV=0x11,URI=\"bad.ts?x\"",
        "seg1.ts?tok"].map pyStrip).filter (fun l => strContains ".ts?" l) ≠
      ["seg1.ts?tok"] := by
  decide

/-- C6 amended: the parser fails whenever no line carries an IV
attribute; on success the segment URLs are exactly the stripped lines
that contain the segment-file marker and are not key-declaration lines,
in file order; a found IV value is returned with surrounding quotes
stripped and a leading 0x/0X stripped. -/
theorem parser_iv_error_and_segment_lines (lines : List String) :
    ((∀ l ∈ lines, lineHasIV l = false) → (parse_m3u8 lines).isOk = false) ∧
    (∀ iv segs, parse_m3u8 lines = .ok (iv, segs) →
      segs = (lines.map pyStrip).filter
        (fun l => !pyStartsWith "#EXT-X-KEY" l && strContains ".ts?" l)) ∧
    parse_m3u8 ["#EXT-X-KEY:METHOD=AES-128,IV=\"0XABCD\"", "s.ts?a"] =
      .ok ("ABCD", ["s.ts?a"]) ∧
    parse_m3u8 ["#EXT-X-KEY:METHOD=AES-128,IV=\"77\"", "s.ts?a"] =
      .ok ("77", ["s.ts?a"]) ∧
    parse_m3u8 ["#EXT-X-KEY:METHOD=AES-128,IV=0x11", "a.ts?1", "b.ts?2"] =
      .ok ("11", ["a.ts?1", "b.ts?2"]) := by
  refine ⟨?_, ?_, by decide, by decide, by decide⟩
  · intro hno
    rcases parseLines_none_iv lines hno [] with h | ⟨segs, h⟩
    · simp [parse_m3u8, h, Except.isOk, Except.toBool]
    · simp [parse_m3u8, h, Except.isOk, Except.toBool]
  · intro iv segs h
    rw [parse_m3u8] at h
    cases hres : parseLines (none, []) lines with
    | error e => rw [hres] at h; cases h
    | ok st =>
      obtain ⟨oiv, segs2⟩ := st
      rw [hres] at h
      cases oiv with
      | none => simp at h
      | some s =>
        by_cases hs : s = ""
        · simp [hs] at h
        · simp only [hs, if_false] at h
          simp at h
          obtain ⟨h1, h2⟩ := h
          subst h2
          have := parseLines_segments lines (none, []) (some s) segs2 hres
          simpa using this

/-- Witness for C6 amended: a playlist with no IV attribute fails; on the
quoted-0X playlist the returned segments match the characterization. -/
theorem parser_iv_error_and_segment_lines_witness :
    (parse_m3u8 ["#EXTINF:4.0", "plain line"]).isOk = false ∧
    (["s.ts?a"] : List String) =
      ((["#EXT-X-KEY:METHOD=AES-128,IV=\"0XABCD\"", "s.ts?a"].map pyStrip).filter
        (fun l => !pyStartsWith "#EXT-X-KEY" l && strContains ".ts?" l)) :=
  ⟨(parser_iv_error_and_segment_lines ["#EXTINF:4.0", "plain line"]).1
      (by decide),
   (parser_iv_error_and_segment_lines
      ["#EXT-X-KEY:METHOD=AES-128,IV=\"0XABCD\"", "s.ts?a"]).2.1
      "ABCD" ["s.ts?a"] (by decide)⟩

/-- C7: on every exit path — completed run, discovery error, zero tasks,
or missing input directory — the final cleanup leaves the top-level
workspace absent, and each early-abort path yields its fatal outcome. -/
theorem workspace_deleted_on_every_exit_path
    (inputExists : Bool) (keyEx : String → Bool) (files : List String)
    (proc : Task → Except String String) (baseExists : Bool) :
    (mainRun inputExists keyEx files proc baseExists).2 = false ∧
    (inputExists = false →
      mainRun inputExists keyEx files proc baseExists = (.fatalNoInput, false)) ∧
    (∀ msg, inputExists = true → find_tasks keyEx files = .error msg →
      mainRun inputExists keyEx files proc baseExists =
        (.fatalDiscovery msg, false)) ∧
    (inputExists = true → find_tasks keyEx files = .ok [] →
      mainRun inputExists keyEx files proc baseExists = (.fatalNoTasks, false)) ∧
    (∀ t ts, inputExists = true → find_tasks keyEx files = .ok (t :: ts) →
      mainRun inputExists keyEx files proc baseExists =
        (.completed (runTasks proc (t :: ts)).1 (runTasks proc (t :: ts)).2,
          false)) := by
  refine ⟨?_, ?_, ?_, ?_, ?_⟩
  · cases inputExists with
    | false => cases baseExists <;> rfl
    | true =>
      cases h : find_tasks keyEx files with
      | error msg => simp [mainRun, mainBody, finalCleanup, h]
      | ok l =>
        cases l with
        | nil => simp [mainRun, mainBody, finalCleanup, h]
        | cons t ts => simp [mainRun, mainBody, finalCleanup, h]
  · intro hin
    subst hin
    cases baseExists <;> rfl
  · intro msg hin h
    subst hin
    simp [mainRun, mainBody, finalCleanup, h]
  · intro hin h
    subst hin
    simp [mainRun, mainBody, finalCleanup, h]
  · intro t ts hin h
    subst hin
    simp [mainRun, mainBody, finalCleanup, h]

/-- Witness for C7: aborting on a missing input directory still ends with
the workspace absent. -/
theorem workspace_deleted_on_every_exit_path_witness :
    (mainRun false (fun _ => true) [] procSample true).2 = false ∧
    mainRun false (fun _ => true) [] procSample true = (.fatalNoInput, false) :=
  ⟨(workspace_deleted_on_every_exit_path false (fun _ => true) [] procSample
      true).1,
   (workspace_deleted_on_every_exit_path false (fun _ => true) [] procSample
      true).2.1 rfl⟩

/-- C8 counterexample: segment positions are 0-indexed, not 1-indexed —
`enumerate` numbers the first segment 0, whose download file is
`segment0.ts`, not `segment1.ts`. -/
theorem segment_one_indexing_counterexample :
    pyEnumerate ["u.ts?x"] = [(0, "u.ts?x")] ∧
    downloadedFiles (fun u => (.ok u : Except String String)) sampleTask
      ["u.ts?x"] = [("processing/downloaded_1.2/segment0.ts", "u.ts?x")] ∧
    downloadPath sampleTask 0 = "processing/downloaded_1.2/segment0.ts" ∧
    ("processing/downloaded_1.2/segment0.ts" : String) ≠
      "processing/downloaded_1.2/segment1.ts" := by
  decide

/-- C8 amended: segment URLs are 0-indexed by position (`enumerate`
yields positions `0..N-1`); a segment's index alone determines both its
download filename and its decrypted filename (`segment<i>.ts` in the
task's two workspace directories); and the set of files written by the
download phase is the same for every arrival order of the concurrent
fetches. -/
theorem segment_index_determines_filenames
    (fetch : String → Except String α) (t : Task) (segments : List String)
    (arrival : List Nat) (hperm : arrival.Perm (List.range segments.length))
    (i : Nat) (url : String) (b : α) (hf : fetch url = .ok b) :
    (pyEnumerate segments).map Prod.fst = List.range segments.length ∧
    download_segment fetch t i url = .ok (downloadPath t i, b) ∧
    downloadPath t i = joinPath t.downloaded_dir (segName i) ∧
    decryptPath t i = joinPath t.decrypted_dir (segName i) ∧
    (writesInOrder fetch t segments arrival).Perm
      (downloadedFiles fetch t segments) := by
  refine ⟨List.enum_map_fst segments, ?_, rfl, rfl, ?_⟩
  · simp [download_segment, hf, Except.map]
  · exact hperm.filterMap _

/-- Witness for C8 amended: two segments arriving in reverse order write
the same files, and segment 0 is written to `segment0.ts`. -/
theorem segment_index_determines_filenames_witness :
    download_segment (fun u => (.ok u : Except String String)) sampleTask 0
      "u0.ts?x" = .ok (downloadPath sampleTask 0, "u0.ts?x") ∧
    (writesInOrder (fun u => (.ok u : Except String String)) sampleTask
        ["u0.ts?x", "u1.ts?y"] [1, 0]).Perm
      (downloadedFiles (fun u => (.ok u : Except String String)) sampleTask
        ["u0.ts?x", "u1.ts?y"]) :=
  ⟨(segment_index_determines_filenames
      (fun u => (.ok u : Except String String)) sampleTask
      ["u0.ts?x", "u1.ts?y"] [1, 0] (by decide) 0 "u0.ts?x" "u0.ts?x"
      rfl).2.1,
   (segment_index_determines_filenames
      (fun u => (.ok u : Except String String)) sampleTask
      ["u0.ts?x", "u1.ts?y"] [1, 0] (by decide) 0 "u0.ts?x" "u0.ts?x"
      rfl).2.2.2.2⟩

/-- C9 counterexample: the manifests `a1.2.m3u8` and `b1.2.m3u8` yield two
distinct tasks that are assigned the same download workspace and the same
decrypt workspace, because the paths are derived from the version label
alone. -/
theorem workspace_collision_counterexample :
    find_tasks (fun _ => true) ["a1.2.m3u8", "b1.2.m3u8"] =
      .ok [sampleTask, sampleTaskB] ∧
    sampleTask ≠ sampleTaskB ∧
    sampleTask.downloaded_dir = sampleTaskB.downloaded_dir ∧
    sampleTask.decrypted_dir = sampleTaskB.decrypted_dir := by
  decide

/-- C9 amended: workspace paths are derived from the version label alone,
so any two discovered tasks with distinct version labels have distinct
download workspaces and distinct decrypt workspaces; exclusivity can fail
only between tasks sharing a version label. -/
theorem workspaces_distinct_across_versions
    (keyEx : String → Bool) (files : List String) (ts : List Task)
    (h : find_tasks keyEx files = .ok ts) (t u : Task)
    (ht : t ∈ ts) (hu : u ∈ ts) (hv : t.version ≠ u.version) :
    t.downloaded_dir ≠ u.downloaded_dir ∧
    t.decrypted_dir ≠ u.decrypted_dir := by
  unfold find_tasks at h
  cases haux : findTasksAux keyEx files with
  | error e => rw [haux] at h; cases h
  | ok l =>
    rw [haux] at h
    simp only [Except.map, Except.ok.injEq] at h
    subst h
    have hperm := List.perm_insertionSort taskLe l
    have htl : t ∈ l := hperm.mem_iff.mp ht
    have hul : u ∈ l := hperm.mem_iff.mp hu
    obtain ⟨htd, htc⟩ := findTasksAux_mem_dirs keyEx files l haux t htl
    obtain ⟨hud, huc⟩ := findTasksAux_mem_dirs keyEx files l haux u hul
    constructor
    · rw [htd, hud]
      intro he
      apply hv
      have h1 := strAppend_cancel_left (base_dir ++ "/") _ _ he
      exact strAppend_cancel_left "downloaded_" _ _ h1
    · rw [htc, huc]
      intro he
      apply hv
      have h1 := strAppend_cancel_left (base_dir ++ "/") _ _ he
      exact strAppend_cancel_left "decrypted_" _ _ h1

/-- Witness for C9 amended: tasks for versions 1.2 and 2.3 get distinct
workspaces. -/
theorem workspaces_distinct_across_versions_witness :
    (mkTask "a1.2.m3u8" "a" "1.2").downloaded_dir ≠
      (mkTask "c2.3.m3u8" "c" "2.3").downloaded_dir ∧
    (mkTask "a1.2.m3u8" "a" "1.2").decrypted_dir ≠
      (mkTask "c2.3.m3u8" "c" "2.3").decrypted_dir :=
  workspaces_distinct_across_versions (fun _ => true)
    ["a1.2.m3u8", "c2.3.m3u8"]
    [mkTask "a1.2.m3u8" "a" "1.2", mkTask "c2.3.m3u8" "c" "2.3"]
    (by decide) (mkTask "a1.2.m3u8" "a" "1.2") (mkTask "c2.3.m3u8" "c" "2.3")
    (by decide) (by decide) (by decide)

/-- C10: a key line whose IV attribute has an empty value (`IV=""` or
`IV="0x"`) is rejected with the very same parse error as a file with no
IV attribute at all, and a successful parse always returns a non-empty
IV string. -/
theorem empty_iv_treated_as_absent
    (lines : List String) (iv : String) (segs : List String)
    (h : parse_m3u8 lines = .ok (iv, segs)) :
    iv ≠ "" ∧
    parse_m3u8 ["#EXT-X-KEY:METHOD=AES-128,IV=\"\"", "s.ts?a"] =
      .error .noIV ∧
    parse_m3u8 ["#EXT-X-KEY:METHOD=AES-128,IV=0x", "s.ts?a"] =
      .error .noIV ∧
    parse_m3u8 ["s.ts?a"] = .error .noIV := by
  refine ⟨?_, by decide, by decide, by decide⟩
  rw [parse_m3u8] at h
  cases hres : parseLines (none, []) lines with
  | error e => rw [hres] at h; cases h
  | ok st =>
    obtain ⟨oiv, segs2⟩ := st
    rw [hres] at h
    cases oiv with
    | none => simp at h
    | some s =>
      by_cases hs : s = ""
      · simp [hs] at h
      · simp only [hs, if_false] at h
        simp at h
        intro hiv
        exact hs (by rw [h.1, hiv])

/-- Witness for C10 at a playlist whose IV parses to "11". -/
theorem empty_iv_treated_as_absent_witness :
    ("11" : String) ≠ "" ∧
    parse_m3u8 ["#EXT-X-KEY:METHOD=AES-128,IV=\"\"", "s.ts?a"] =
      .error .noIV :=
  ⟨(empty_iv_treated_as_absent
      ["#EXT-X-KEY:METHOD=AES-128,IV=0x11", "a.ts?1"] "11" ["a.ts?1"]
      (by decide)).1,
   (empty_iv_treated_as_absent
      ["#EXT-X-KEY:METHOD=AES-128,IV=0x11", "a.ts?1"] "11" ["a.ts?1"]
      (by decide)).2.1⟩

end BatchDecrypt
